import Mathlib

/-!
Verification of the driver/MAC-sublayer boundary contract of
drivers/compat-wireless/include/net/mac80211.h.

Pure helper functions of the header (rate_supported, rate_lowest_index,
rate_usable_index_exists, ieee80211_tx_info_clear_status) are embedded
directly from their C source.  Contract functions that the header only
declares or documents (retry-chain status reporting, aggregation session
management, power-save service periods, station lifecycle) are modelled
from the specification, as marked in their doc comments.
-/

/-! ## Rate selection / status: struct ieee80211_tx_rate -/

/-- Embeds `struct ieee80211_tx_rate`: rate index (`s8`, -1 = terminator),
try count, and rate-control flags. -/
structure ieee80211_tx_rate where
  idx : Int
  count : Nat
  flags : Nat
  deriving DecidableEq

/-- `IEEE80211_TX_MAX_RATES`: maximum number of rate stages. -/
def IEEE80211_TX_MAX_RATES : Nat := 4

/-- Sum of the per-stage attempt counts of a retry chain. -/
def sumCounts (l : List ieee80211_tx_rate) : Nat :=
  (l.map (fun r => r.count)).sum

/-- Number of stages before the first `idx = -1` terminator, the active
length of a retry-chain array. -/
def chainLen : List ieee80211_tx_rate → Nat
  | [] => 0
  | r :: rs => if r.idx = -1 then 0 else 1 + chainLen rs

/-- Pads a list of active stages to the 4-entry `rates` array with
`{ -1, 0 }` terminator entries. -/
def pad4 (l : List ieee80211_tx_rate) : List ieee80211_tx_rate :=
  l ++ List.replicate (IEEE80211_TX_MAX_RATES - l.length) ⟨-1, 0, 0⟩

/-- Modelled from the spec: given the control-phase active stages and the
1-based overall attempt number on which the acknowledgement arrived,
computes the status-phase active stages: stages fully used before the ack
keep their offered count, the stage in which the ack occurred reports only
the tries made in it, and later stages are dropped. -/
def statusStages : List ieee80211_tx_rate → Nat → List ieee80211_tx_rate
  | [], _ => []
  | r :: rs, k =>
    if k ≤ r.count then [{ r with count := k }]
    else r :: statusStages rs (k - r.count)

/-- A post-transmission status report: the reported active stages and the
acknowledgement outcome. -/
structure StatusReport where
  stages : List ieee80211_tx_rate
  acked : Bool
  deriving DecidableEq

/-- Modelled from the spec: status reporting for a transmitted frame.  If
no acknowledgement was received every offered stage was exhausted and the
status chain equals the control chain; if the ack arrived on overall
attempt `k` the chain truncates at the stage where the ack occurred. -/
def reportStatus (control : List ieee80211_tx_rate) :
    Option Nat → StatusReport
  | none => ⟨control, false⟩
  | some k => ⟨statusStages control k, true⟩

theorem statusStages_length_le (c : List ieee80211_tx_rate) (k : Nat) :
    (statusStages c k).length ≤ c.length := by
  induction c generalizing k with
  | nil => simp [statusStages]
  | cons r rs ih =>
    simp only [statusStages]
    split
    · simp
    · simpa using ih (k - r.count)

theorem statusStages_count_le (c : List ieee80211_tx_rate) (k : Nat) :
    List.Forall₂ (fun s r => s.count ≤ r.count) (statusStages c k)
      (c.take (statusStages c k).length) := by
  induction c generalizing k with
  | nil => simp [statusStages]
  | cons r rs ih =>
    simp only [statusStages]
    split
    · next hk =>
      simp only [List.length_singleton, List.take_succ_cons, List.take_zero]
      exact List.Forall₂.cons hk List.Forall₂.nil
    · next hk =>
      simp only [List.length_cons, List.take_succ_cons]
      exact List.Forall₂.cons (le_refl r.count) (ih (k - r.count))

theorem statusStages_sum_le (c : List ieee80211_tx_rate) (k : Nat) :
    sumCounts (statusStages c k) ≤ sumCounts c := by
  induction c generalizing k with
  | nil => simp [statusStages]
  | cons r rs ih =>
    simp only [statusStages]
    split
    · simp only [sumCounts, List.map_cons, List.map_nil, List.sum_cons,
        List.sum_nil]
      omega
    · simp only [sumCounts, List.map_cons, List.sum_cons] at *
      exact Nat.add_le_add_left (ih (k - r.count)) r.count

theorem statusStages_mem_idx (c : List ieee80211_tx_rate) (k : Nat)
    (r : ieee80211_tx_rate) (hr : r ∈ statusStages c k) :
    ∃ r₀ ∈ c, r.idx = r₀.idx := by
  induction c generalizing k with
  | nil => simp [statusStages] at hr
  | cons a rs ih =>
    simp only [statusStages] at hr
    by_cases hk : k ≤ a.count
    · simp only [hk, if_pos, List.mem_singleton] at hr
      exact ⟨a, List.mem_cons_self a rs, by simp [hr]⟩
    · simp only [hk, if_neg, not_false_iff, List.mem_cons] at hr
      rcases hr with h | h
      · exact ⟨a, List.mem_cons_self a rs, by simp [h]⟩
      · rcases ih (k - a.count) h with ⟨r₀, hr₀, he⟩
        exact ⟨r₀, List.mem_cons_of_mem a hr₀, he⟩

theorem chainLen_append_of_no_term (l t : List ieee80211_tx_rate)
    (h : ∀ r ∈ l, r.idx ≠ -1) :
    chainLen (l ++ t) = l.length + chainLen t := by
  induction l with
  | nil => simp
  | cons a rs ih =>
    have ha : a.idx ≠ -1 := h a (List.mem_cons_self a rs)
    have ih2 := ih (fun r hr => h r (List.mem_cons_of_mem a hr))
    have hstep : chainLen ((a :: rs) ++ t) = 1 + chainLen (rs ++ t) := by
      simp [chainLen, ha]
    rw [hstep, ih2, List.length_cons]
    omega

theorem chainLen_replicate_term (m : Nat) :
    chainLen (List.replicate m (⟨-1, 0, 0⟩ : ieee80211_tx_rate)) = 0 := by
  cases m with
  | zero => simp [chainLen]
  | succ n => simp [List.replicate_succ, chainLen]

theorem chainLen_pad4 (l : List ieee80211_tx_rate)
    (h : ∀ r ∈ l, r.idx ≠ -1) : chainLen (pad4 l) = l.length := by
  unfold pad4
  rw [chainLen_append_of_no_term l _ h, chainLen_replicate_term]
  omega

/-- C1: for every frame, the status-phase retry chain reconciles against
the control-phase chain: at each stage the reported attempt count is at
most the offered count, the total attempts summed over stages in status
are at most the total offered in control, and the status chain's padded
array terminates no later than the control chain's (its active length is
at most the control active length). -/
theorem c1_retry_chain_reconciles (c : List ieee80211_tx_rate)
    (ack : Option Nat) (h : ∀ r ∈ c, r.idx ≠ -1) :
    List.Forall₂ (fun s r => s.count ≤ r.count)
      (reportStatus c ack).stages
      (c.take (reportStatus c ack).stages.length) ∧
    sumCounts (reportStatus c ack).stages ≤ sumCounts c ∧
    chainLen (pad4 (reportStatus c ack).stages) ≤ chainLen (pad4 c) := by
  cases ack with
  | none =>
    refine ⟨?_, le_of_eq rfl, le_of_eq rfl⟩
    simp only [reportStatus, List.take_length]
    exact List.forall₂_same.mpr (fun r _ => le_refl r.count)
  | some k =>
    refine ⟨statusStages_count_le c k, statusStages_sum_le c k, ?_⟩
    have hs : ∀ r ∈ statusStages c k, r.idx ≠ -1 := by
      intro r hr
      rcases statusStages_mem_idx c k r hr with ⟨r₀, hr₀, he⟩
      rw [he]; exact h r₀ hr₀
    simp only [reportStatus]
    rw [chainLen_pad4 _ hs, chainLen_pad4 _ h]
    exact statusStages_length_le c k

/-- Witness for C1: the documented example chain, ack on attempt 5. -/
theorem c1_retry_chain_reconciles_witness :
    List.Forall₂ (fun s r => s.count ≤ r.count)
      (reportStatus [⟨3, 2, 0⟩, ⟨2, 2, 0⟩, ⟨1, 4, 0⟩] (some 5)).stages
      (([⟨3, 2, 0⟩, ⟨2, 2, 0⟩, ⟨1, 4, 0⟩] :
          List ieee80211_tx_rate).take
        (reportStatus [⟨3, 2, 0⟩, ⟨2, 2, 0⟩, ⟨1, 4, 0⟩]
            (some 5)).stages.length) ∧
    sumCounts (reportStatus [⟨3, 2, 0⟩, ⟨2, 2, 0⟩, ⟨1, 4, 0⟩]
        (some 5)).stages ≤
      sumCounts [⟨3, 2, 0⟩, ⟨2, 2, 0⟩, ⟨1, 4, 0⟩] ∧
    chainLen (pad4 (reportStatus [⟨3, 2, 0⟩, ⟨2, 2, 0⟩, ⟨1, 4, 0⟩]
        (some 5)).stages) ≤
      chainLen (pad4 [⟨3, 2, 0⟩, ⟨2, 2, 0⟩, ⟨1, 4, 0⟩]) :=
  c1_retry_chain_reconciles [⟨3, 2, 0⟩, ⟨2, 2, 0⟩, ⟨1, 4, 0⟩] (some 5)
    (by decide)

/-- C2: with the offered chain {3,2},{2,2},{1,4}, no acknowledgement
reports exactly the offered chain with outcome unacknowledged, and an
acknowledgement on the 5th overall attempt reports {3,2},{2,2},{1,1}
with outcome acknowledged. -/
theorem c2_retry_chain_scenarios :
    reportStatus [⟨3, 2, 0⟩, ⟨2, 2, 0⟩, ⟨1, 4, 0⟩] none =
      ⟨[⟨3, 2, 0⟩, ⟨2, 2, 0⟩, ⟨1, 4, 0⟩], false⟩ ∧
    reportStatus [⟨3, 2, 0⟩, ⟨2, 2, 0⟩, ⟨1, 4, 0⟩] (some 5) =
      ⟨[⟨3, 2, 0⟩, ⟨2, 2, 0⟩, ⟨1, 1, 0⟩], true⟩ := by
  constructor
  · rfl
  · decide

/-! ## Rate lookup helpers: rate_supported, rate_lowest_index,
rate_usable_index_exists (embedded from the C source) -/

/-- Embeds the station fields used by rate lookup: the per-band
supported-rate bitmap `supp_rates[band]`. -/
structure ieee80211_sta where
  supp_rates : Nat → Nat

/-- Embeds the fields of `struct ieee80211_supported_band` used by rate
lookup: the band identifier and the number of bitrates. -/
structure ieee80211_supported_band where
  band : Nat
  n_bitrates : Nat

/-- Embeds `rate_supported`: true when `sta == NULL` or bit `index` of
`sta->supp_rates[band]` is set. -/
def rate_supported (sta : Option ieee80211_sta) (band : Nat)
    (index : Nat) : Bool :=
  match sta with
  | none => true
  | some s => Nat.testBit (s.supp_rates band) index

/-- Embeds `rate_lowest_index`: scans indices `0 ≤ i < n_bitrates` and
returns the first supported one; if none is supported it warns
(`WARN_ON_ONCE`) and returns 0, the lowest index. -/
def rate_lowest_index (sband : ieee80211_supported_band)
    (sta : Option ieee80211_sta) : Int :=
  match (List.range sband.n_bitrates).find?
      (fun i => rate_supported sta sband.band i) with
  | some i => (i : Int)
  | none => 0

/-- Embeds `rate_usable_index_exists`: true when some index
`0 ≤ i < n_bitrates` is supported for the station. -/
def rate_usable_index_exists (sband : ieee80211_supported_band)
    (sta : Option ieee80211_sta) : Bool :=
  (List.range sband.n_bitrates).any
    (fun i => rate_supported sta sband.band i)

/-- A band with 4 bitrates on band 0. -/
def sband0 : ieee80211_supported_band := ⟨0, 4⟩

/-- A station whose supported-rate bitmap is empty on every band. -/
def sta_no_rates : ieee80211_sta := ⟨fun _ => 0⟩

/-- A station supporting only the lowest rate (bit 0) on every band. -/
def sta_rate0_only : ieee80211_sta := ⟨fun _ => 1⟩

/-- C3 counterexample: for a station with no usable rate in the active
band, `rate_lowest_index` does not fail — it returns rate index 0, the
same value it returns for a station that legitimately supports only the
lowest rate, so the caller receives a rate index rather than an error. -/
theorem c3_counterexample :
    rate_usable_index_exists sband0 (some sta_no_rates) = false ∧
    rate_lowest_index sband0 (some sta_no_rates) = 0 ∧
    rate_lowest_index sband0 (some sta_rate0_only) = 0 := by
  decide

/-- C3 (amended): `rate_usable_index_exists` is the fail-fast check — it
returns true exactly when the station has a usable rate below
`n_bitrates` in the active band; `rate_lowest_index` itself does not
report an error when no rate is usable but falls back to index 0 (after
a kernel warning). -/
theorem c3_no_usable_rate (sband : ieee80211_supported_band)
    (sta : Option ieee80211_sta) :
    (rate_usable_index_exists sband sta = true ↔
      ∃ i < sband.n_bitrates, rate_supported sta sband.band i = true) ∧
    (rate_usable_index_exists sband sta = false →
      rate_lowest_index sband sta = 0) := by
  constructor
  · simp only [rate_usable_index_exists, List.any_eq_true, List.mem_range]
  · intro h
    have hall : ∀ i ∈ List.range sband.n_bitrates,
        ¬ rate_supported sta sband.band i = true := by
      intro i hi
      exact (List.any_eq_false.mp h) i hi
    unfold rate_lowest_index
    have hfind : (List.range sband.n_bitrates).find?
        (fun i => rate_supported sta sband.band i) = none := by
      rw [List.find?_eq_none]
      intro x hx
      simpa using hall x hx
    rw [hfind]

/-- Witness for the amended C3 at the concrete no-usable-rate station. -/
theorem c3_no_usable_rate_witness :
    (rate_usable_index_exists sband0 (some sta_no_rates) = true ↔
      ∃ i < sband0.n_bitrates,
        rate_supported (some sta_no_rates) sband0.band i = true) ∧
    (rate_usable_index_exists sband0 (some sta_no_rates) = false →
      rate_lowest_index sband0 (some sta_no_rates) = 0) :=
  c3_no_usable_rate sband0 (some sta_no_rates)

/-! ## TX status clearing: struct ieee80211_tx_info and
ieee80211_tx_info_clear_status (embedded from the C source) -/

/-- Embeds `struct ieee80211_tx_info` in its status view: the common
fields (`flags`, `band`, `hw_queue`, `ack_frame_id`), the `rates` array
shared by the control/status/driver views, and the status fields
(`ack_signal` at offset 20, then `ampdu_ack_len`, `ampdu_len`,
`antenna`). -/
structure ieee80211_tx_info where
  flags : Nat
  band : Nat
  hw_queue : Nat
  ack_frame_id : Nat
  rates : List ieee80211_tx_rate
  ack_signal : Int
  ampdu_ack_len : Nat
  ampdu_len : Nat
  antenna : Nat

/-- Embeds `ieee80211_tx_info_clear_status`: clears the `count` of each
of the rate stages, then zeroes the struct from `ampdu_ack_len` to its
end (`ampdu_ack_len`, `ampdu_len`, `antenna`); everything before
`ampdu_ack_len` — the common fields, the rate `idx`/`flags`, and
`ack_signal` — is untouched. -/
def ieee80211_tx_info_clear_status (info : ieee80211_tx_info) :
    ieee80211_tx_info :=
  { info with
    rates := info.rates.map (fun r => { r with count := 0 }),
    ampdu_ack_len := 0,
    ampdu_len := 0,
    antenna := 0 }

/-- C10: clearing TX status zeroes every stage's count while keeping its
idx and flags, zeroes ampdu_ack_len, ampdu_len and antenna, and leaves
flags, band, hw_queue, ack_frame_id and ack_signal unmodified. -/
theorem c10_clear_status (info : ieee80211_tx_info) :
    (ieee80211_tx_info_clear_status info).rates.map (fun r => r.count) =
      List.replicate info.rates.length 0 ∧
    (ieee80211_tx_info_clear_status info).rates.map (fun r => r.idx) =
      info.rates.map (fun r => r.idx) ∧
    (ieee80211_tx_info_clear_status info).rates.map (fun r => r.flags) =
      info.rates.map (fun r => r.flags) ∧
    (ieee80211_tx_info_clear_status info).ampdu_ack_len = 0 ∧
    (ieee80211_tx_info_clear_status info).ampdu_len = 0 ∧
    (ieee80211_tx_info_clear_status info).antenna = 0 ∧
    (ieee80211_tx_info_clear_status info).flags = info.flags ∧
    (ieee80211_tx_info_clear_status info).band = info.band ∧
    (ieee80211_tx_info_clear_status info).hw_queue = info.hw_queue ∧
    (ieee80211_tx_info_clear_status info).ack_frame_id =
      info.ack_frame_id ∧
    (ieee80211_tx_info_clear_status info).ack_signal =
      info.ack_signal := by
  refine ⟨?_, ?_, ?_, rfl, rfl, rfl, rfl, rfl, rfl, rfl, rfl⟩
  · show (info.rates.map (fun r => { r with count := 0 })).map
        (fun r => r.count) = List.replicate info.rates.length 0
    induction info.rates with
    | nil => simp
    | cons a t ih => simpa [List.replicate_succ] using ih
  · show (info.rates.map (fun r => { r with count := 0 })).map
        (fun r => r.idx) = info.rates.map (fun r => r.idx)
    simp [List.map_map, Function.comp]
  · show (info.rates.map (fun r => { r with count := 0 })).map
        (fun r => r.flags) = info.rates.map (fun r => r.flags)
    simp [List.map_map, Function.comp]

/-! ## Aggregation session manager (modelled from the spec) -/

/-- Aggregation session states from the spec: IDLE, REQUESTED,
OPERATIONAL, STOPPING. -/
inductive AggState where
  | IDLE
  | REQUESTED
  | OPERATIONAL
  | STOPPING
  deriving DecidableEq

/-- Modelled from the spec: `ieee80211_start_tx_ba_session` is only
declared in the header; modelled as the session-level start request.
From IDLE a start is accepted as a fresh REQUESTED session when
resources allow, and on rejection the session reverts to IDLE; a start
while a session is already in progress fails. -/
def ieee80211_start_tx_ba_session (s : AggState) (accepted : Bool) :
    Int × AggState :=
  match s with
  | .IDLE => if accepted then (0, .REQUESTED) else (-13, .IDLE)
  | _ => (-16, s)

/-- Modelled from the spec: `ieee80211_stop_tx_ba_session` is only
declared in the header ("Return: negative error if the TID is invalid,
or no aggregation active").  For a session in any non-IDLE state the
stop is best-effort local cleanup that never fails; the modelled
operation includes the driver's stop-completion callback
(`ieee80211_stop_tx_ba_cb_irqsafe`), so the STOPPING intermediate has
already drained to IDLE in the returned state. -/
def ieee80211_stop_tx_ba_session (s : AggState) (tid : Nat) :
    Int × AggState :=
  if 15 < tid then (-22, s)
  else
    match s with
    | .IDLE => (-2, .IDLE)
    | _ => (0, .IDLE)

/-- C4: for a session in any non-IDLE state — including a REQUESTED
session whose TX_OPERATIONAL confirmation has not arrived (a late delBA
racing an addBA) — a stop request with a valid TID succeeds and leaves
the session in IDLE, and a subsequent start for the same (station, TID)
is accepted as a fresh REQUESTED session. -/
theorem c4_agg_stop_always_succeeds (s : AggState) (tid : Nat)
    (h : s ≠ AggState.IDLE) (ht : tid ≤ 15) :
    ieee80211_stop_tx_ba_session s tid = (0, AggState.IDLE) ∧
    ieee80211_start_tx_ba_session
        (ieee80211_stop_tx_ba_session s tid).2 true =
      (0, AggState.REQUESTED) := by
  have hstop : ieee80211_stop_tx_ba_session s tid = (0, AggState.IDLE) := by
    unfold ieee80211_stop_tx_ba_session
    rw [if_neg (by omega)]
    cases s with
    | IDLE => exact absurd rfl h
    | REQUESTED => rfl
    | OPERATIONAL => rfl
    | STOPPING => rfl
  exact ⟨hstop, by rw [hstop]; rfl⟩

/-- Witness for C4: the race scenario — TX_STOP on a REQUESTED session
for TID 2 succeeds, ends in IDLE, and a fresh TX_START is accepted. -/
theorem c4_agg_stop_always_succeeds_witness :
    ieee80211_stop_tx_ba_session AggState.REQUESTED 2 =
      (0, AggState.IDLE) ∧
    ieee80211_start_tx_ba_session
        (ieee80211_stop_tx_ba_session AggState.REQUESTED 2).2 true =
      (0, AggState.REQUESTED) :=
  c4_agg_stop_always_succeeds AggState.REQUESTED 2 (by decide) (by decide)

/-! ## Power-save transition (modelled from the spec) -/

/-- Modelled from the spec: `ieee80211_sta_ps_transition` is only
declared in the header ("The function returns -EINVAL when the
requested PS mode is already set").  The station's PS mode is the Bool
`asleep`; the function returns the error code and the resulting mode. -/
def ieee80211_sta_ps_transition (asleep : Bool) (start : Bool) :
    Int × Bool :=
  if asleep = start then (-22, asleep) else (0, start)

/-- C7: requesting a PS transition to the mode the station already holds
returns -EINVAL and changes nothing, and the operation errors exactly
when the requested mode is already set; a genuine transition succeeds
and installs the requested mode. -/
theorem c7_ps_transition_idempotence_error (asleep start : Bool) :
    ((ieee80211_sta_ps_transition asleep start).1 < 0 ↔ asleep = start) ∧
    (asleep = start →
      ieee80211_sta_ps_transition asleep start = (-22, asleep)) ∧
    (asleep ≠ start →
      ieee80211_sta_ps_transition asleep start = (0, start)) := by
  unfold ieee80211_sta_ps_transition
  by_cases h : asleep = start
  · rw [if_pos h]
    exact ⟨by simp [h], fun _ => rfl, fun hne => absurd h hne⟩
  · rw [if_neg h]
    exact ⟨by simp [h], fun he => absurd he h, fun _ => rfl⟩

/-- Witness for C7: a station already asleep asked to sleep again gets
-EINVAL with no state change; an awake station asked to sleep
transitions. -/
theorem c7_ps_transition_idempotence_error_witness :
    ieee80211_sta_ps_transition true true = (-22, true) ∧
    ieee80211_sta_ps_transition false true = (0, true) :=
  ⟨(c7_ps_transition_idempotence_error true true).2.1 rfl,
   (c7_ps_transition_idempotence_error false true).2.2 (by decide)⟩

/-! ## Station lifecycle (enum from the source, step machine modelled
from the spec) -/

/-- Embeds `enum ieee80211_sta_state`, whose values are ordered
NOTEXIST < NONE < AUTH < ASSOC < AUTHORIZED. -/
inductive ieee80211_sta_state where
  | NOTEXIST
  | NONE
  | AUTH
  | ASSOC
  | AUTHORIZED
  deriving DecidableEq

/-- Numeric value of a station state in the enum's order. -/
def staStateVal : ieee80211_sta_state → Nat
  | .NOTEXIST => 0
  | .NONE => 1
  | .AUTH => 2
  | .ASSOC => 3
  | .AUTHORIZED => 4

/-- Modelled from the spec: the `sta_state` callback contract — "It must
not fail for down transitions but may fail for transitions up the list
of states" — combined with the lifecycle rule that states progress one
step at a time in the enum's order in both directions.  `driverOk`
stands for the driver accepting an upward transition. -/
def sta_state (old new : ieee80211_sta_state) (driverOk : Bool) :
    Except Int ieee80211_sta_state :=
  if staStateVal new = staStateVal old + 1 then
    (if driverOk then .ok new else .error (-5))
  else if staStateVal new + 1 = staStateVal old then .ok new
  else .error (-22)

/-- Modelled from the spec: a station may be destroyed only after
reaching NOTEXIST. -/
def sta_destroy_ok (s : ieee80211_sta_state) : Bool :=
  decide (s = .NOTEXIST)

/-- C8: downward one-step transitions never fail; every successful
transition moves exactly one step up or down the enum order (no state is
skipped in either direction); an upward transition may fail when the
driver rejects it; and destruction is allowed exactly at NOTEXIST. -/
theorem c8_sta_lifecycle (old new : ieee80211_sta_state)
    (driverOk : Bool) :
    (staStateVal new + 1 = staStateVal old →
      sta_state old new driverOk = .ok new) ∧
    (∀ s, sta_state old new driverOk = .ok s →
      s = new ∧ (staStateVal new = staStateVal old + 1 ∨
        staStateVal new + 1 = staStateVal old)) ∧
    (staStateVal new = staStateVal old + 1 → driverOk = false →
      sta_state old new driverOk = .error (-5)) ∧
    (sta_destroy_ok old = true ↔ old = .NOTEXIST) := by
  refine ⟨?_, ?_, ?_, ?_⟩
  · intro hdown
    unfold sta_state
    rw [if_neg (by omega), if_pos hdown]
  · intro s hs
    unfold sta_state at hs
    split_ifs at hs with h1 h2 h3
    all_goals rw [Except.ok.injEq] at hs
    · exact ⟨hs.symm, Or.inl h1⟩
    · exact ⟨hs.symm, Or.inr h3⟩
  · intro hup hok
    subst hok
    unfold sta_state
    rw [if_pos hup]
    rfl
  · simp [sta_destroy_ok]

/-- Witness for C8: ASSOC→AUTH (downward) succeeds; NONE→AUTH (upward)
with the driver rejecting fails. -/
theorem c8_sta_lifecycle_witness :
    sta_state ieee80211_sta_state.ASSOC ieee80211_sta_state.AUTH true =
      .ok ieee80211_sta_state.AUTH ∧
    sta_state ieee80211_sta_state.NONE ieee80211_sta_state.AUTH false =
      .error (-5) :=
  ⟨(c8_sta_lifecycle ieee80211_sta_state.ASSOC
      ieee80211_sta_state.AUTH true).1 (by decide),
   (c8_sta_lifecycle ieee80211_sta_state.NONE
      ieee80211_sta_state.AUTH false).2.2.1 (by decide) rfl⟩

/-! ## Power-save service periods (modelled from the spec) -/

/-- Embeds `enum ieee80211_frame_release_type`: PS-Poll or U-APSD
initiated release. -/
inductive ieee80211_frame_release_type where
  | PSPOLL
  | UAPSD
  deriving DecidableEq

/-- Per-station power-save record: sleep state, buffered frame count per
TID, and whether a service period is currently open. -/
structure PsStation where
  asleep : Bool
  buffered : Nat → Nat
  sp_active : Bool

/-- A frame delivered during a service period, with its TID, the
end-of-service-period marker and the more-data indication. -/
structure ReleasedFrame where
  tid : Nat
  eosp : Bool
  more_data : Bool
  deriving DecidableEq

/-- TIDs of the frames released: walks the trigger's TID list taking
from each TID as many buffered frames as remain requested. -/
def collectRelease : List Nat → (Nat → Nat) → Nat → List Nat
  | [], _, _ => []
  | t :: ts, buf, num =>
    List.replicate (min (buf t) num) t ++
      collectRelease ts buf (num - min (buf t) num)

/-- Buffered counts after the released frames are removed. -/
def afterRelease (buf : Nat → Nat) (released : List Nat) : Nat → Nat :=
  fun t => buf t - released.count t

/-- True when any of the 16 TIDs still holds buffered data. -/
def moreDataRemains (buf : Nat → Nat) : Bool :=
  (List.range 16).any (fun t => decide (0 < buf t))

/-- Stamps released frames: every frame carries the common more-data
indication, and only the last frame carries the EOSP marker. -/
def markFrames (md : Bool) : List Nat → List ReleasedFrame
  | [] => []
  | t :: ts =>
    match ts with
    | [] => [⟨t, true, md⟩]
    | t2 :: ts2 => ⟨t, false, md⟩ :: markFrames md (t2 :: ts2)

/-- Modelled from the spec: the `release_buffered_frames` callback
contract, which the header only documents.  A trigger arriving while a
service period is already open is deferred (nothing released, state
unchanged); otherwise up to `num` frames are released from the given
TIDs, the last released frame carries EOSP, every released frame
carries more-data reflecting whether buffered data remains on any TID,
and the period closes with delivery of the EOSP frame. -/
def release_buffered_frames (st : PsStation) (tids : List Nat)
    (num : Nat) : List ReleasedFrame × PsStation :=
  if st.sp_active then ([], st)
  else
    (markFrames
        (moreDataRemains (afterRelease st.buffered
          (collectRelease tids st.buffered num)))
        (collectRelease tids st.buffered num),
     { st with
        buffered := afterRelease st.buffered
          (collectRelease tids st.buffered num) })

/-- Modelled from the spec: a service-period trigger.  For a PS-Poll the
`num_frames` parameter is always 1; a U-APSD trigger passes the
requested count through. -/
def spTrigger (st : PsStation) (reason : ieee80211_frame_release_type)
    (tids : List Nat) (num : Nat) : List ReleasedFrame × PsStation :=
  release_buffered_frames st tids
    (match reason with
     | .PSPOLL => 1
     | .UAPSD => num)

theorem collectRelease_zero :
    ∀ (ts : List Nat) (buf : Nat → Nat), collectRelease ts buf 0 = []
  | [], _ => rfl
  | t :: ts, buf => by
    simp [collectRelease, collectRelease_zero ts buf]

theorem markFrames_cons_cons (md : Bool) (t t2 : Nat) (ts : List Nat) :
    markFrames md (t :: t2 :: ts) =
      ⟨t, false, md⟩ :: markFrames md (t2 :: ts) := by
  simp [markFrames]

theorem markFrames_length (md : Bool) :
    ∀ l : List Nat, (markFrames md l).length = l.length
  | [] => rfl
  | [_] => rfl
  | t :: t2 :: ts => by
    rw [markFrames_cons_cons, List.length_cons, List.length_cons,
      markFrames_length md (t2 :: ts), List.length_cons]

theorem markFrames_eosp (md : Bool) :
    ∀ l : List Nat, l ≠ [] →
      (markFrames md l).countP (fun f => f.eosp) = 1 ∧
      ∀ f, (markFrames md l).getLast? = some f → f.eosp = true
  | [], hne => absurd rfl hne
  | [t], _ => by
    refine ⟨by simp [markFrames, List.countP_cons], ?_⟩
    intro f hf
    simp [markFrames] at hf
    rw [← hf]
  | t :: t2 :: ts, _ => by
    obtain ⟨ih1, ih2⟩ := markFrames_eosp md (t2 :: ts) (by simp)
    rw [markFrames_cons_cons]
    constructor
    · rw [List.countP_cons]
      simp [ih1]
    · intro f hf
      cases hM : markFrames md (t2 :: ts) with
      | nil =>
        have := markFrames_length md (t2 :: ts)
        rw [hM] at this
        simp at this
      | cons g gs =>
        rw [hM, List.getLast?_cons_cons] at hf
        exact ih2 f (by rw [hM]; exact hf)

theorem markFrames_more_data (md : Bool) :
    ∀ l : List Nat, ∀ f ∈ markFrames md l, f.more_data = md
  | [] => by intro f hf; simp [markFrames] at hf
  | [t] => by
    intro f hf
    simp [markFrames] at hf
    rw [hf]
  | t :: t2 :: ts => by
    intro f hf
    rw [markFrames_cons_cons] at hf
    rcases List.mem_cons.mp hf with h | h
    · rw [h]
    · exact markFrames_more_data md (t2 :: ts) f h

/-- C5: at most one service period is open per station — a trigger
arriving while one is open releases nothing and changes nothing; in any
period exactly one delivered frame carries the EOSP marker and it is
the last delivered frame; and a PS-Poll trigger on a TID with buffered
data releases exactly one frame (its `num_frames` is always 1). -/
theorem c5_service_period (st : PsStation)
    (reason : ieee80211_frame_release_type) (tids : List Nat)
    (num : Nat) :
    (st.sp_active = true → spTrigger st reason tids num = ([], st)) ∧
    (st.sp_active = false → (spTrigger st reason tids num).1 ≠ [] →
      (spTrigger st reason tids num).1.countP (fun f => f.eosp) = 1 ∧
      ∀ f, (spTrigger st reason tids num).1.getLast? = some f →
        f.eosp = true) ∧
    (st.sp_active = false → reason = .PSPOLL →
      ∀ t ts2, tids = t :: ts2 → 1 ≤ st.buffered t →
        (spTrigger st reason tids num).1.length = 1) := by
  refine ⟨?_, ?_, ?_⟩
  · intro h
    unfold spTrigger release_buffered_frames
    rw [if_pos h]
  · intro h hne
    unfold spTrigger release_buffered_frames at hne ⊢
    rw [if_neg (by simp [h])] at hne ⊢
    simp only at hne ⊢
    refine markFrames_eosp _ _ ?_
    intro hrel
    exact hne (by rw [hrel]; rfl)
  · intro h hr t ts2 htids hbuf
    subst hr
    subst htids
    unfold spTrigger release_buffered_frames
    rw [if_neg (by simp [h])]
    simp only
    rw [markFrames_length]
    have hmin : min (st.buffered t) 1 = 1 := Nat.min_eq_right hbuf
    simp [collectRelease, hmin, collectRelease_zero]

/-- The PS-Poll scenario station: asleep, one buffered frame on TID 4,
no service period open. -/
def st5 : PsStation :=
  ⟨true, fun t => if t = 4 then 1 else 0, false⟩

/-- Witness for C5: the PS-Poll scenario — station asleep with one
buffered frame on TID 4 — releases exactly one frame, with exactly one
EOSP marker carried by the last (here only) frame. -/
theorem c5_service_period_witness :
    ((spTrigger st5 ieee80211_frame_release_type.PSPOLL [4] 1).1.countP
        (fun f => f.eosp) = 1 ∧
      ∀ f, (spTrigger st5 ieee80211_frame_release_type.PSPOLL
          [4] 1).1.getLast? = some f → f.eosp = true) ∧
    (spTrigger st5 ieee80211_frame_release_type.PSPOLL [4] 1).1.length =
      1 :=
  ⟨(c5_service_period st5 ieee80211_frame_release_type.PSPOLL [4] 1).2.1
      rfl (by decide),
   (c5_service_period st5 ieee80211_frame_release_type.PSPOLL [4] 1).2.2
      rfl rfl 4 [] rfl (by decide)⟩

/-- The U-APSD residual-data scenario station: asleep, one buffered
frame on TID 0 and two on TID 4, no service period open. -/
def st6 : PsStation :=
  ⟨true, fun t => if t = 0 then 1 else if t = 4 then 2 else 0, false⟩

/-- C6: in a U-APSD release the more-data indication on every released
frame is true exactly when buffered data remains on some TID (any of
the 16, not only the TIDs released from) after the release; in the
scenario with frames on TIDs {0,4} and two frames requested from TID 4,
both delivered frames carry more-data because TID 0 still holds one,
and EOSP is set only on the second. -/
theorem c6_more_data_any_tid (st : PsStation) (tids : List Nat)
    (num : Nat) (h : st.sp_active = false) :
    (∀ f ∈ (spTrigger st ieee80211_frame_release_type.UAPSD
        tids num).1,
      (f.more_data = true ↔
        ∃ t < 16, 0 < (spTrigger st ieee80211_frame_release_type.UAPSD
          tids num).2.buffered t)) ∧
    (spTrigger st6 ieee80211_frame_release_type.UAPSD [4] 2).1 =
      [⟨4, false, true⟩, ⟨4, true, true⟩] := by
  constructor
  · intro f hf
    unfold spTrigger release_buffered_frames at hf ⊢
    rw [if_neg (by simp [h])] at hf ⊢
    simp only at hf ⊢
    have hmd := markFrames_more_data _ _ f hf
    rw [hmd]
    simp [moreDataRemains, List.any_eq_true, List.mem_range]
  · decide

/-- Witness for C6 at the scenario station: both delivered frames carry
more-data = true exactly because a TID below 16 still holds data. -/
theorem c6_more_data_any_tid_witness :
    (∀ f ∈ (spTrigger st6 ieee80211_frame_release_type.UAPSD [4] 2).1,
      (f.more_data = true ↔
        ∃ t < 16, 0 < (spTrigger st6 ieee80211_frame_release_type.UAPSD
          [4] 2).2.buffered t)) ∧
    (spTrigger st6 ieee80211_frame_release_type.UAPSD [4] 2).1 =
      [⟨4, false, true⟩, ⟨4, true, true⟩] :=
  c6_more_data_any_tid st6 [4] 2 rfl

/-! ## A-MPDU buffer-size discipline (modelled from the spec) -/

/-- TX-side state of an OPERATIONAL aggregation session: the negotiated
buffer size, the next fresh sequence number, and the sequence numbers
currently in flight unacknowledged. -/
structure AggTxState where
  buf_size : Nat
  next_seq : Nat
  inflight : List Nat
  deriving DecidableEq

/-- Sender events: transmit a fresh subframe, retransmit an in-flight
subframe, or receive an acknowledgement for one. -/
inductive AmpduTxEvent where
  | send
  | retransmit (s : Nat)
  | ack (s : Nat)
  deriving DecidableEq

/-- Modelled from the spec: the buffer-size discipline documented on the
`ampdu_action` callback — the driver may neither have more than
`buf_size` subframes in flight unacknowledged nor retransmit a subframe
once `buf_size` newer subframes have been sent past it (the peer's
reorder window may have advanced).  A guarded step returns `none` when
the event would violate the discipline. -/
def ampduTxStep (st : AggTxState) : AmpduTxEvent → Option AggTxState
  | .send =>
    if st.inflight.length < st.buf_size then
      some ⟨st.buf_size, st.next_seq + 1, st.inflight ++ [st.next_seq]⟩
    else none
  | .retransmit s =>
    if s ∈ st.inflight ∧ st.next_seq ≤ s + st.buf_size then some st
    else none
  | .ack s => some { st with inflight := st.inflight.erase s }

/-- Runs a sequence of sender events through the guarded step. -/
def ampduTxRun (st : AggTxState) : List AmpduTxEvent → Option AggTxState
  | [] => some st
  | e :: es =>
    match ampduTxStep st e with
    | some st2 => ampduTxRun st2 es
    | none => none

/-- Initial TX state of a session that became OPERATIONAL with
negotiated buffer size `n`. -/
def ampduInit (n : Nat) : AggTxState := ⟨n, 0, []⟩

theorem ampduTxStep_send (st : AggTxState) :
    ampduTxStep st .send =
      if st.inflight.length < st.buf_size then
        some ⟨st.buf_size, st.next_seq + 1,
          st.inflight ++ [st.next_seq]⟩
      else none := rfl

theorem ampduTxStep_retransmit (st : AggTxState) (s : Nat) :
    ampduTxStep st (.retransmit s) =
      if s ∈ st.inflight ∧ st.next_seq ≤ s + st.buf_size then some st
      else none := rfl

theorem ampduTxStep_ack (st : AggTxState) (s : Nat) :
    ampduTxStep st (.ack s) =
      some { st with inflight := st.inflight.erase s } := rfl

theorem ampduTxRun_nil (st : AggTxState) : ampduTxRun st [] = some st :=
  rfl

theorem ampduTxRun_cons (st : AggTxState) (e : AmpduTxEvent)
    (es : List AmpduTxEvent) :
    ampduTxRun st (e :: es) =
      match ampduTxStep st e with
      | some st2 => ampduTxRun st2 es
      | none => none := rfl

theorem ampduTxStep_buf_size (st st2 : AggTxState) (e : AmpduTxEvent)
    (h : ampduTxStep st e = some st2) : st2.buf_size = st.buf_size := by
  cases e with
  | send =>
    rw [ampduTxStep_send] at h
    split_ifs at h with hg
    rw [Option.some.injEq] at h
    rw [← h]
  | retransmit s =>
    rw [ampduTxStep_retransmit] at h
    split_ifs at h with hg
    rw [Option.some.injEq] at h
    rw [← h]
  | ack s =>
    rw [ampduTxStep_ack, Option.some.injEq] at h
    rw [← h]

theorem ampduTxStep_inv (st st2 : AggTxState) (e : AmpduTxEvent)
    (h : ampduTxStep st e = some st2)
    (hinv : st.inflight.length ≤ st.buf_size) :
    st2.inflight.length ≤ st2.buf_size := by
  cases e with
  | send =>
    rw [ampduTxStep_send] at h
    split_ifs at h with hg
    rw [Option.some.injEq] at h
    rw [← h]
    simpa using hg
  | retransmit s =>
    rw [ampduTxStep_retransmit] at h
    split_ifs at h with hg
    rw [Option.some.injEq] at h
    rw [← h]
    exact hinv
  | ack s =>
    rw [ampduTxStep_ack, Option.some.injEq] at h
    rw [← h]
    exact le_trans (List.length_erase_le _ _) hinv

theorem ampduTxRun_inv :
    ∀ (events : List AmpduTxEvent) (st st2 : AggTxState),
      ampduTxRun st events = some st2 →
      st.inflight.length ≤ st.buf_size →
      st2.inflight.length ≤ st2.buf_size
  | [], st, st2, h, hinv => by
    rw [ampduTxRun_nil, Option.some.injEq] at h
    rw [← h]
    exact hinv
  | e :: es, st, st2, h, hinv => by
    rw [ampduTxRun_cons] at h
    cases hstep : ampduTxStep st e with
    | none => rw [hstep] at h; exact Option.noConfusion h
    | some stMid =>
      rw [hstep] at h
      exact ampduTxRun_inv es stMid st2 h
        (ampduTxStep_inv st stMid e hstep hinv)

theorem ampduTxRun_buf_size :
    ∀ (events : List AmpduTxEvent) (st st2 : AggTxState),
      ampduTxRun st events = some st2 → st2.buf_size = st.buf_size
  | [], st, st2, h => by
    rw [ampduTxRun_nil, Option.some.injEq] at h
    rw [← h]
  | e :: es, st, st2, h => by
    rw [ampduTxRun_cons] at h
    cases hstep : ampduTxStep st e with
    | none => rw [hstep] at h; exact Option.noConfusion h
    | some stMid =>
      rw [hstep] at h
      rw [ampduTxRun_buf_size es stMid st2 h,
        ampduTxStep_buf_size st stMid e hstep]

theorem ampduTxRun_append (l1 l2 : List AmpduTxEvent) :
    ∀ st : AggTxState, ampduTxRun st (l1 ++ l2) =
      (ampduTxRun st l1).bind (fun stMid => ampduTxRun stMid l2) := by
  induction l1 with
  | nil => intro st; rfl
  | cons e es ih =>
    intro st
    rw [List.cons_append, ampduTxRun_cons, ampduTxRun_cons]
    cases ampduTxStep st e with
    | none => rfl
    | some stMid => exact ih stMid

/-- C9: in every guarded execution of an OPERATIONAL session with
negotiated buffer size N, the number of in-flight unacknowledged
subframes never exceeds N, and whenever a retransmission of subframe
`s` occurs, `s` is still unacknowledged and `next_seq ≤ s + N` at that
point, i.e. fewer than N newer subframes have been sent past it. -/
theorem c9_buffer_size_discipline (n : Nat)
    (events : List AmpduTxEvent) :
    (∀ st2, ampduTxRun (ampduInit n) events = some st2 →
      st2.inflight.length ≤ n) ∧
    (∀ pre s rest,
      events = pre ++ AmpduTxEvent.retransmit s :: rest →
      ampduTxRun (ampduInit n) events ≠ none →
      ∃ stMid, ampduTxRun (ampduInit n) pre = some stMid ∧
        s ∈ stMid.inflight ∧ stMid.next_seq ≤ s + n) := by
  constructor
  · intro st2 h
    have h1 := ampduTxRun_inv events (ampduInit n) st2 h
      (by simp [ampduInit])
    have h2 := ampduTxRun_buf_size events (ampduInit n) st2 h
    rw [h2] at h1
    exact h1
  · intro pre s rest he hne
    subst he
    rw [ampduTxRun_append] at hne
    cases hpre : ampduTxRun (ampduInit n) pre with
    | none => rw [hpre] at hne; exact absurd rfl hne
    | some stMid =>
      rw [hpre] at hne
      refine ⟨stMid, rfl, ?_⟩
      by_cases hg : s ∈ stMid.inflight ∧
          stMid.next_seq ≤ s + stMid.buf_size
      · have hbuf := ampduTxRun_buf_size pre (ampduInit n) stMid hpre
        rw [show (ampduInit n).buf_size = n from rfl] at hbuf
        exact ⟨hg.1, by rw [← hbuf]; exact hg.2⟩
      · exfalso
        apply hne
        show ampduTxRun stMid (AmpduTxEvent.retransmit s :: rest) = none
        rw [ampduTxRun_cons, ampduTxStep_retransmit, if_neg hg]

/-- Witness for C9: buffer size 2, events send, send, ack 0,
retransmit 1 — the final in-flight set is within the window and the
retransmission of 1 happens with 1 unacknowledged and only one newer
subframe sent past it. -/
theorem c9_buffer_size_discipline_witness :
    ((⟨2, 2, [1]⟩ : AggTxState).inflight.length ≤ 2) ∧
    (∃ stMid, ampduTxRun (ampduInit 2)
        [AmpduTxEvent.send, AmpduTxEvent.send, AmpduTxEvent.ack 0] =
          some stMid ∧
      1 ∈ stMid.inflight ∧ stMid.next_seq ≤ 1 + 2) :=
  ⟨(c9_buffer_size_discipline 2
      [AmpduTxEvent.send, AmpduTxEvent.send, AmpduTxEvent.ack 0,
        AmpduTxEvent.retransmit 1]).1 ⟨2, 2, [1]⟩ (by decide),
   (c9_buffer_size_discipline 2
      [AmpduTxEvent.send, AmpduTxEvent.send, AmpduTxEvent.ack 0,
        AmpduTxEvent.retransmit 1]).2
      [AmpduTxEvent.send, AmpduTxEvent.send, AmpduTxEvent.ack 0] 1 []
      rfl (by decide)⟩
